import Mathlib

/-!
# Verification of the LLM-trader validation and execution core

Shallow embedding of `validation.py` (`validate_trades`) and `trading_bot.py`
(`execute_trade`, `cancel_bracket_orders_for_ticker`,
`reestablish_bracket_for_remaining_shares`).

Modelling conventions:
* Python floats and their decimal literals are modelled exactly as rationals (`ℚ`).
* A dict field read with `.get(k)` yields `Option`: `none` models both an absent
  key and a JSON `null` (both give Python `None`); numeric fields are modelled
  as `Option ℚ` (the advisory source delivers already-coerced-or-null numbers).
  The one place the absent/null distinction matters is `position.get("qty", 0)`,
  whose field is therefore `Option (Option ℚ)`: `none` = key absent (default 0),
  `some none` = present but `None`/unparseable (so `float(...)` raises),
  `some (some q)` = the number `q`.
* A Python exception that escapes a function is `Except.error ()`; exceptions
  caught by a `try`/`except` that `continue`s are silent drops.
* The synchronous Finnhub fallback of `validate_trades` is an oracle
  `fb : String → Option (Option ℚ)`: `none` models a failed request
  (non-200 or network error, logged and dropped), `some c` models a 200
  response whose `"c"` field is `c` (possibly `null`, which the code does not
  validate before using).
* Python `round(x, 2)` (banker's rounding) is modelled as round-to-nearest on
  `ℚ`; the two differ only at exact half-cent ties, which stays within the
  `1/200` tolerance used in the stop-loss bound statements.
* Python `int(x)` on a float truncates toward zero (`pyInt`).
-/

deriving instance DecidableEq for Except

namespace LLMTrader

/-- A trade intent as parsed from the advisory response: the dict fields
`validate_trades` reads and writes. -/
structure Intent where
  ticker : Option String
  action : Option String
  quantity : Option ℚ
  stop_loss : Option ℚ
  order_target_price : Option ℚ
deriving DecidableEq

/-- A raw position record from `get_portfolio_info` (or an arbitrary dict, for
robustness claims). `qty : Option (Option ℚ)` distinguishes an absent key
(`none`, so `get("qty", 0)` defaults to `0`) from a present null/unparseable
value (`some none`, so `float(...)` raises). -/
structure Position where
  ticker : Option String
  qty : Option (Option ℚ)
deriving DecidableEq

/-- The portfolio snapshot fields `validate_trades` uses. `buying_power = none`
models an absent or unparseable value (both end up as `0` via the
`try`/`except`); `account_value` is parsed by the code but never used, so it is
omitted. -/
structure Portfolio where
  positions : List Position
  buying_power : Option ℚ
deriving DecidableEq

/-- First-match association-list lookup; models `dict[k]` / `dict.get(k)` on
dicts whose keys are unique. -/
def assocLookup {α : Type} : List (String × α) → String → Option α
  | [], _ => none
  | kv :: rest, k => if kv.1 = k then some kv.2 else assocLookup rest k

/-- Python `d[k] = v` on an insertion-ordered dict: an existing key keeps its
position and gets the new value, a new key is appended. -/
def upd {α : Type} (m : List (String × α)) (k : String) (v : α) : List (String × α) :=
  match m with
  | [] => [(k, v)]
  | kv :: rest => if kv.1 = k then (k, v) :: rest else kv :: upd rest k v

/-- Python `str.upper()`, for the ASCII strings (tickers, actions) this code
handles; written via the character list so that it reduces in the kernel. -/
def pyUpper (s : String) : String :=
  ⟨s.data.map Char.toUpper⟩

/-- Python `int(x)` on a float: truncation toward zero. -/
def pyInt (x : ℚ) : ℤ :=
  if 0 ≤ x then ⌊x⌋ else ⌈x⌉

/-- Python `round(x, 2)`: round to the nearest multiple of 1/100. -/
def round2 (x : ℚ) : ℚ :=
  ((round (x * 100) : ℤ) : ℚ) / 100

/-- Python `trade.get("action", "").upper()`. -/
def actOf (t : Intent) : String :=
  pyUpper (t.action.getD "")

/-- Lines 17-24 of `validation.py`: deduplicate by the key
`f"{ticker}_{action}"` (action uppercased), last occurrence wins, insertion
order of keys preserved; trades with a falsy (absent/empty) ticker or action
are not keyed at all. -/
def uniqueTrades (trades : List Intent) : List (String × Intent) :=
  trades.foldl
    (fun m t =>
      match t.ticker with
      | none => m
      | some tk =>
        let act := actOf t
        if tk = "" ∨ act = "" then m else upd m (tk ++ "_" ++ act) t)
    []

/-- Lines 27-33 of `validation.py`: the `positions` dict keyed by uppercased
ticker. `float(position.get("qty", 0))` raises on a present-but-null qty. -/
def buildPositionsLoop : List Position → List (String × ℚ) → Except Unit (List (String × ℚ))
  | [], m => .ok m
  | pos :: rest, m =>
    let tk := pyUpper (pos.ticker.getD "")
    match pos.qty with
    | some none => .error ()
    | some (some q) => buildPositionsLoop rest (if tk = "" then m else upd m tk q)
    | none => buildPositionsLoop rest (if tk = "" then m else upd m tk 0)

/-- Entry point for lines 27-33 of `validation.py`. -/
def buildPositions (ps : List Position) : Except Unit (List (String × ℚ)) :=
  buildPositionsLoop ps []

/-- Line 46 of `validation.py`:
`open_positions = {x.get("ticker", ""): x for x in ...}` (raw, non-uppercased
keys; later entries overwrite earlier ones). -/
def buildOpenPositions (ps : List Position) : List (String × Position) :=
  ps.foldl (fun m pos => upd m (pos.ticker.getD "") pos) []

/-- Lines 54-68 of `validation.py`: the fast path. Returns `.ok true` when the
trade is appended unchanged and the loop `continue`s, `.ok false` when control
falls through to the position/price/capital checks, and `.error ()` when
`float(open_positions[ticker].get("qty"))` raises (absent or null qty). -/
def fastCheck (openPos : List (String × Position)) (tkO : Option String) (act : String) :
    Except Unit Bool :=
  match tkO with
  | none => .ok false
  | some tk =>
    match assocLookup openPos tk with
    | none => .ok false
    | some pos =>
      if act = "SELL" ∨ act = "SHORT" then
        match pos.qty.bind id with
        | none => .error ()
        | some q => .ok (decide (0 ≤ q))
      else if act = "COVER" then
        match pos.qty.bind id with
        | none => .error ()
        | some q => .ok (decide (q < 0))
      else if act = "BUY" then
        match pos.qty.bind id with
        | none => .error ()
        | some q => .ok (decide (q ≤ 0))
      else .ok false

/-- Lines 71-88 of `validation.py`: the SELL/COVER position checks and the
position-size clamp. `.ok none` = dropped (`continue`), `.ok (some t')` = the
trade continues with a possibly clamped quantity, `.error ()` = the comparison
`quantity > position_qty` raised (null quantity). -/
def clampStep (positions : List (String × ℚ)) (tkO : Option String) (act : String)
    (t : Intent) : Except Unit (Option Intent) :=
  if act = "SELL" then
    if (tkO.bind (assocLookup positions)).getD 0 ≤ 0 then .ok none
    else
      match t.quantity with
      | none => .error ()
      | some q =>
        if (tkO.bind (assocLookup positions)).getD 0 < q then
          .ok (some { t with
            quantity := some ((pyInt ((tkO.bind (assocLookup positions)).getD 0) : ℤ) : ℚ) })
        else .ok (some t)
  else if act = "COVER" then
    if 0 ≤ (tkO.bind (assocLookup positions)).getD 0 then .ok none
    else
      match t.quantity with
      | none => .error ()
      | some q =>
        if |(tkO.bind (assocLookup positions)).getD 0| < q then
          .ok (some { t with
            quantity := some ((pyInt |(tkO.bind (assocLookup positions)).getD 0| : ℤ) : ℚ) })
        else .ok (some t)
  else .ok (some t)

/-- Lines 90-112 of `validation.py`: resolution of `current_price`.
`none` = the trade is dropped (a caught exception or a failed fallback fetch);
`some cp` = control reaches `quantity = int(quantity)` with `current_price`
bound to `cp` (`some p` a number, `none` the unvalidated null `"c"` a
fallback response may carry). -/
def resolveCP (quotes : List (String × Option ℚ)) (fb : String → Option (Option ℚ))
    (t : Intent) : Option (Option ℚ) :=
  match t.ticker.bind (assocLookup quotes) with
  | some qv =>
    match qv with
    | some p => some (some p)
    | none => none
  | none =>
    match t.order_target_price with
    | some v => some (some v)
    | none =>
      match fb (t.ticker.getD "None") with
      | none => none
      | some c => some c

/-- Lines 90-115 of `validation.py`: the whole `try` block — price resolution
followed by `quantity = int(quantity)`. `none` = dropped. -/
def priceAndQty (quotes : List (String × Option ℚ)) (fb : String → Option (Option ℚ))
    (t : Intent) : Option (Option ℚ × ℤ) :=
  match resolveCP quotes fb t with
  | none => none
  | some cp =>
    match t.quantity with
    | none => none
    | some q => some (cp, pyInt q)

/-- Lines 121-132 of `validation.py`: the stop-loss adjustment. -/
def adjustStop (act : String) (p : ℚ) (t : Intent) : Intent :=
  if act = "BUY" ∨ act = "COVER" then
    match t.stop_loss with
    | none => { t with stop_loss := some (round2 (p * (7 / 10))) }
    | some s =>
      if s < p * (7 / 10) then { t with stop_loss := some (round2 (p * (7 / 10))) } else t
  else if act = "SELL" ∨ act = "SHORT" then
    match t.stop_loss with
    | none => { t with stop_loss := some (round2 (p * (13 / 10))) }
    | some s =>
      if p * (13 / 10) < s then { t with stop_loss := some (round2 (p * (13 / 10))) } else t
  else t

/-- Lines 49-133 of `validation.py`: one iteration of the main loop.
`.ok (some o)` = `o` appended to `valid_trades`, `.ok none` = dropped,
`.error ()` = an uncaught exception (fast-path qty parse, null quantity at the
clamp comparison, or a null fallback price reaching line 118). -/
def processTrade (openPos : List (String × Position)) (positions : List (String × ℚ))
    (quotes : List (String × Option ℚ)) (fb : String → Option (Option ℚ)) (bp : ℚ)
    (t : Intent) : Except Unit (Option Intent) :=
  match fastCheck openPos t.ticker (actOf t) with
  | .error e => .error e
  | .ok true => .ok (some t)
  | .ok false =>
    match clampStep positions t.ticker (actOf t) t with
    | .error e => .error e
    | .ok none => .ok none
    | .ok (some t1) =>
      match priceAndQty quotes fb t1 with
      | none => .ok none
      | some (none, _) => .error ()
      | some (some p, qI) =>
        if p * ((|qI| : ℤ) : ℚ) > bp then .ok none
        else .ok (some (adjustStop (actOf t) p t1))

/-- The main loop of `validate_trades` over `unique_trades.values()`,
accumulating `valid_trades`. -/
def validateLoop (openPos : List (String × Position)) (positions : List (String × ℚ))
    (quotes : List (String × Option ℚ)) (fb : String → Option (Option ℚ)) (bp : ℚ) :
    List Intent → List Intent → Except Unit (List Intent)
  | [], acc => .ok acc
  | t :: rest, acc =>
    match processTrade openPos positions quotes fb bp t with
    | .error e => .error e
    | .ok none => validateLoop openPos positions quotes fb bp rest acc
    | .ok (some t') => validateLoop openPos positions quotes fb bp rest (acc ++ [t'])

/-- Embeds `validate_trades(trades, quote_data, portfolio_info, FINNHUB_API_KEY)` from
`validation.py`. `quotes` is the `quote_data` dict restricted to the
`current_price` entry each value carries; `fb` is the Finnhub fallback oracle
(standing in for the API key plus the network). -/
def validate_trades (trades : List Intent) (quotes : List (String × Option ℚ))
    (pf : Portfolio) (fb : String → Option (Option ℚ)) : Except Unit (List Intent) :=
  match buildPositions pf.positions with
  | .error e => .error e
  | .ok positions =>
    validateLoop (buildOpenPositions pf.positions) positions quotes fb
      (pf.buying_power.getD 0) ((uniqueTrades trades).map (fun kv => kv.2)) []

/-! ## Embedding of `trading_bot.py`: the order-execution coordinator -/

/-- Models `alpaca.trading.enums.OrderSide` as used by `execute_trade`. -/
inductive Side where
  | buy
  | sell
deriving DecidableEq

/-- A `MarketOrderRequest` as built by `execute_trade` /
`reestablish_bracket_for_remaining_shares`: `bracket` records whether
`order_class=BRACKET` was set; `stop_loss` is the `(stop_price, limit_price)`
pair of the stop leg; `take_profit` the limit price of the take-profit leg.
`qty` is passed through from the order dict unvalidated. -/
structure OrderSpec where
  symbol : String
  qty : Option ℚ
  side : Side
  bracket : Bool
  take_profit : Option ℚ
  stop_loss : Option (ℚ × ℚ)
deriving DecidableEq

/-- An open order at the broker as seen by `cancel_bracket_orders_for_ticker`.
`bracket` models `order.order_class == OrderClass.BRACKET.value`; `qty` the
result of `int(order.qty)`; `details = some (stop_price, take_profit_limit)`
when `float(order.stop_loss["stop_price"])` and
`float(order.take_profit["limit_price"])` both parse, `none` when reading them
raises (the inner `try` of lines 132-140). -/
structure BrokerOrder where
  id : ℕ
  symbol : String
  qty : ℤ
  bracket : Bool
  details : Option (ℚ × ℚ)
deriving DecidableEq

/-- An observable effect on the brokerage gateway: a cancellation
(`trading_client.cancel_order`) or a submission (`trading_client.submit_order`).
The gateway is modelled as accepting every call; the code never branches on a
submission's outcome (its `try`/`except` only logs), so the event trace is
unaffected. -/
inductive Ev where
  | cancel (id : ℕ)
  | submit (spec : OrderSpec)
deriving DecidableEq

/-- The order dict `execute_trade` receives (a validated trade). -/
structure OrderDict where
  ticker : Option String
  action : Option String
  quantity : Option ℚ
  stop_loss : Option ℚ
  take_profits_price : Option ℚ
deriving DecidableEq

/-- Python `order_dict.get("action", "").upper()`. -/
def actUpper (od : OrderDict) : String :=
  pyUpper (od.action.getD "")

/-- The plain (non-bracket) `MarketOrderRequest` of lines 260-266. -/
def marketSpec (tk : String) (q : Option ℚ) (s : Side) : OrderSpec :=
  { symbol := tk, qty := q, side := s, bracket := false,
    take_profit := none, stop_loss := none }

/-- The `for order in open_orders` loop of lines 125-143 of `trading_bot.py`,
with its three accumulators: `tot` (`total_reserved`), `orig`
(`original_bracket`, kept once set, otherwise the next bracket's details are
tried), and the cancellation events issued so far. Cancellations are modelled
as succeeding (a raising `cancel_order` would abort the loop via the outer
`try`; no claim exercises that path). -/
def cancelLoop : List BrokerOrder → ℤ → Option (ℚ × ℚ) → List Ev →
    ℤ × Option (ℚ × ℚ) × List Ev
  | [], tot, orig, evs => (tot, orig, evs)
  | o :: rest, tot, orig, evs =>
    if o.bracket then
      cancelLoop rest (tot + o.qty)
        (match orig with
         | some x => some x
         | none => o.details)
        (evs ++ [Ev.cancel o.id])
    else cancelLoop rest tot orig evs

/-- Embeds `cancel_bracket_orders_for_ticker(ticker)` from `trading_bot.py`
(lines 109-146): the broker's `get_all_orders(status="open", symbols=[ticker])`
is modelled as filtering the open-order list by symbol. Returns
`(total_reserved, original_bracket, cancellation events)`. -/
def cancel_bracket_orders_for_ticker (tk : String) (openOrders : List BrokerOrder) :
    ℤ × Option (ℚ × ℚ) × List Ev :=
  cancelLoop (openOrders.filter (fun o => o.symbol == tk)) 0 none []

/-- Embeds `reestablish_bracket_for_remaining_shares(ticker, remaining_qty,
original_bracket, side)` from `trading_bot.py` (lines 148-188): the submission
event it issues. Note the take-profit and stop prices are reused unrounded;
only the derived stop-limit price is rounded. -/
def reestablish_bracket_for_remaining_shares (tk : String) (remaining : ℚ)
    (ob : ℚ × ℚ) (side : Side) : Ev :=
  Ev.submit { symbol := tk, qty := some remaining, side := side, bracket := true,
              take_profit := some ob.2,
              stop_loss := some (ob.1,
                if side = Side.sell then round2 (ob.1 + ob.1 * (1 / 100))
                else round2 (ob.1 - ob.1 * (1 / 100))) }

/-- The body of `execute_trade` after the order side is determined
(lines 218-273 of `trading_bot.py`). `.error ()` models an uncaught exception
(null stop-loss/take-profit arithmetic on the entry path, or the
`reserved_qty > qty` comparison with a null quantity on the COVER path). -/
def execAfterSide (od : OrderDict) (openOrders : List BrokerOrder) (tk : String)
    (act : String) (side : Side) : Except Unit (List Ev) :=
  if act = "BUY" ∨ act = "SHORT" then
    match od.stop_loss, od.take_profits_price with
    | some sl, some tp =>
      .ok [Ev.submit { symbol := tk, qty := od.quantity, side := side, bracket := true,
                       take_profit := some (round2 tp),
                       stop_loss := some (round2 sl,
                         if act = "SHORT" then round2 (sl + sl * (1 / 100))
                         else round2 (sl - sl * (1 / 100))) }]
    | _, _ => .error ()
  else
    if act = "COVER" then
      match od.quantity with
      | none => .error ()
      | some q =>
        if ((cancel_bracket_orders_for_ticker tk openOrders).1 : ℚ) > q then
          match (cancel_bracket_orders_for_ticker tk openOrders).2.1 with
          | some ob =>
            .ok ((cancel_bracket_orders_for_ticker tk openOrders).2.2
              ++ [reestablish_bracket_for_remaining_shares tk
                    (((cancel_bracket_orders_for_ticker tk openOrders).1 : ℚ) - q) ob side]
              ++ [Ev.submit (marketSpec tk od.quantity side)])
          | none =>
            .ok ((cancel_bracket_orders_for_ticker tk openOrders).2.2
              ++ [Ev.submit (marketSpec tk od.quantity side)])
        else
          .ok ((cancel_bracket_orders_for_ticker tk openOrders).2.2
            ++ [Ev.submit (marketSpec tk od.quantity side)])
    else
      .ok [Ev.submit (marketSpec tk od.quantity side)]

/-- Embeds `execute_trade(order_dict)` from `trading_bot.py` (lines 190-273), as the
trace of gateway events it produces. `.error ()` models an uncaught exception
(`None.upper()`, the `ValueError` for an unknown action, or the cases noted at
`execAfterSide`). -/
def execute_trade (od : OrderDict) (openOrders : List BrokerOrder) :
    Except Unit (List Ev) :=
  match od.ticker with
  | none => .error ()
  | some tk0 =>
    if actUpper od = "BUY" ∨ actUpper od = "COVER" then
      execAfterSide od openOrders (pyUpper tk0) (actUpper od) Side.buy
    else if actUpper od = "SELL" ∨ actUpper od = "SHORT" then
      execAfterSide od openOrders (pyUpper tk0) (actUpper od) Side.sell
    else .error ()

/-! ## Concrete inputs used by the counterexamples and witnesses -/

/-- A fallback oracle on which every Finnhub fallback request fails (and is
therefore dropped by the inner `try`). -/
def fb0 : String → Option (Option ℚ) := fun _ => none

/-- C1: a long AAPL position of 10 shares. -/
def posC1 : Position := { ticker := some "AAPL", qty := some (some 10) }

/-- C1: portfolio holding `posC1` with zero buying power. -/
def pfC1 : Portfolio := { positions := [posC1], buying_power := some 0 }

/-- C1: a SELL intent for 5 AAPL shares. -/
def iC1 : Intent := { ticker := some "AAPL", action := some "SELL", quantity := some 5,
                      stop_loss := none, order_target_price := none }

/-- C1: quote data pricing AAPL at 100. -/
def quotesC1 : List (String × Option ℚ) := [("AAPL", some 100)]

/-- C2: portfolio with a long AAPL position of 10 shares and ample buying
power. -/
def pfC2 : Portfolio :=
  { positions := [{ ticker := some "AAPL", qty := some (some 10) }], buying_power := some 10000 }

/-- C2: a SELL intent carrying a stop loss of 1000, far above 1.3x the quoted
price of 100. -/
def iC2 : Intent := { ticker := some "AAPL", action := some "SELL", quantity := some 5,
                      stop_loss := some 1000, order_target_price := none }

/-- C2: quote data pricing AAPL at 100. -/
def quotesC2 : List (String × Option ℚ) := [("AAPL", some 100)]

/-- C2 witness: a BUY intent for a ticker not in the portfolio (the full
validation path). -/
def iC2w : Intent := { ticker := some "MSFT", action := some "BUY", quantity := some 2,
                       stop_loss := none, order_target_price := none }

/-- C2 witness: an empty portfolio with ample buying power. -/
def pfC2w : Portfolio := { positions := [], buying_power := some 10000 }

/-- C2 witness: quote data pricing MSFT at 200. -/
def quotesC2w : List (String × Option ℚ) := [("MSFT", some 200)]

/-- C2 witness: the order `validate_trades` authorizes for `iC2w` — the stop
loss is filled in at `round(0.7 * 200, 2) = 140`. -/
def oC2w : Intent := { iC2w with stop_loss := some 140 }

/-- C3 (spec Scenario A): the intent `{NVDA, SELL, qty = 100}`. -/
def iC3 : Intent := { ticker := some "NVDA", action := some "SELL", quantity := some 100,
                      stop_loss := none, order_target_price := none }

/-- C3 (spec Scenario A): a portfolio with an existing long NVDA position of
50 shares. -/
def pfC3 : Portfolio :=
  { positions := [{ ticker := some "NVDA", qty := some (some 50) }], buying_power := some 100000 }

/-- C3: quote data pricing NVDA at 120. -/
def quotesC3 : List (String × Option ℚ) := [("NVDA", some 120)]

/-- C4: one open bracket order reserving 15 META shares. -/
def bC4 : BrokerOrder :=
  { id := 1, symbol := "META", qty := 15, bracket := true, details := some (480, 500) }

/-- C4: a COVER order for 20 META shares. -/
def odC4 : OrderDict := { ticker := some "META", action := some "COVER", quantity := some 20,
                          stop_loss := none, take_profits_price := none }

/-- C5: one open bracket order reserving 50 TSLA shares, stop 300 / take 500. -/
def bC5 : BrokerOrder :=
  { id := 1, symbol := "TSLA", qty := 50, bracket := true, details := some (300, 500) }

/-- C5: a COVER order for 5 TSLA shares. -/
def odC5 : OrderDict := { ticker := some "TSLA", action := some "COVER", quantity := some 5,
                          stop_loss := none, take_profits_price := none }

/-- C6 (spec Scenario D): an open bracket order reserving 15 META shares. -/
def bC6a : BrokerOrder :=
  { id := 1, symbol := "META", qty := 15, bracket := true, details := some (480, 500) }

/-- C6 (spec Scenario D): a second open bracket order reserving 50 META
shares. -/
def bC6b : BrokerOrder :=
  { id := 2, symbol := "META", qty := 50, bracket := true, details := some (470, 505) }

/-- C6 (spec Scenario D): a COVER order for 20 META shares. -/
def odC6 : OrderDict := { ticker := some "META", action := some "COVER", quantity := some 20,
                          stop_loss := none, take_profits_price := none }

/-- C7: a portfolio whose position record carries a null `qty`, so
`float(position.get("qty", 0))` raises on line 30 of `validation.py`. -/
def pfC7 : Portfolio :=
  { positions := [{ ticker := some "NVDA", qty := some none }], buying_power := some 100 }

/-- C7 witness: a well-formed BUY intent. -/
def iC7w : Intent := { ticker := some "GOOG", action := some "BUY", quantity := some 1,
                       stop_loss := none, order_target_price := none }

/-- C7 witness: a well-formed portfolio. -/
def pfC7w : Portfolio :=
  { positions := [{ ticker := some "GOOG", qty := some (some 3) }], buying_power := some 500 }

/-- C8: a portfolio with a long AAPL position of 10 shares. -/
def pfC8 : Portfolio :=
  { positions := [{ ticker := some "AAPL", qty := some (some 10) }], buying_power := some 1000 }

/-- C8: a SELL intent whose quantity is null. -/
def iC8 : Intent := { ticker := some "AAPL", action := some "SELL", quantity := none,
                      stop_loss := none, order_target_price := none }

/-- C8 witness: a BUY intent for a ticker not in the portfolio. -/
def iC8w : Intent := { ticker := some "AMD", action := some "BUY", quantity := some 3,
                       stop_loss := some 90, order_target_price := none }

/-- C8 witness: an empty portfolio with ample buying power. -/
def pfC8w : Portfolio := { positions := [], buying_power := some 1000 }

/-- C8 witness: quote data pricing AMD at 100. -/
def quotesC8w : List (String × Option ℚ) := [("AMD", some 100)]

/-- C10: an open GME bracket order whose stop/take details fail to parse. -/
def bC10a : BrokerOrder :=
  { id := 1, symbol := "GME", qty := 10, bracket := true, details := none }

/-- C10: a second open GME bracket order whose details parse as stop 40 /
take 60. -/
def bC10b : BrokerOrder :=
  { id := 2, symbol := "GME", qty := 20, bracket := true, details := some (40, 60) }

/-- C10: a COVER order for 5 GME shares. -/
def odC10 : OrderDict := { ticker := some "GME", action := some "COVER", quantity := some 5,
                           stop_loss := none, take_profits_price := none }

/-- C10 witness: a single open GME bracket order with unparseable details. -/
def bC10w : BrokerOrder :=
  { id := 7, symbol := "GME", qty := 10, bracket := true, details := none }

/-- C10 witness: a COVER order for 4 GME shares. -/
def odC10w : OrderDict := { ticker := some "GME", action := some "COVER", quantity := some 4,
                            stop_loss := none, take_profits_price := none }

/-! ## Theorems -/

/-- C1, counterexample. The claim states that fast-path-accepted intents are
still subjected to the price-resolution and buying-power checks of steps 5-6
before entering the authorized list. At this input the SELL intent `iC1` is
fast-path eligible (long AAPL holding of 10), the portfolio's buying power is
0, and AAPL's resolved price is 100 — so the step-6 capital check
`100 * 5 ≤ 0` fails — yet `validate_trades` returns the intent. -/
theorem fastpath_skips_capital_check_cex :
    fastCheck (buildOpenPositions pfC1.positions) iC1.ticker (actOf iC1) = .ok true ∧
    validate_trades [iC1] quotesC1 pfC1 fb0 = .ok [iC1] ∧
    resolveCP quotesC1 fb0 iC1 = some (some 100) ∧
    pfC1.buying_power = some 0 ∧
    ¬ ((100 : ℚ) * 5 ≤ (0 : ℚ)) :=
  ⟨by decide, by decide, by decide, rfl, by norm_num⟩

/-- C1, amended. An intent accepted by the validator's fast path is appended
to the output unchanged and the loop continues: it bypasses not only the
position-size clamp of step 4 but also the price-resolution check of step 5,
the buying-power check of step 6 and the stop-loss adjustment of step 7. -/
theorem fastpath_appends_unchanged (op : List (String × Position)) (pos : List (String × ℚ))
    (quotes : List (String × Option ℚ)) (fb : String → Option (Option ℚ)) (bp : ℚ) (t : Intent)
    (h : fastCheck op t.ticker (actOf t) = .ok true) :
    processTrade op pos quotes fb bp t = .ok (some t) := by
  unfold processTrade
  rw [h]

/-- C1, witness: `fastpath_appends_unchanged` applied to the concrete
fast-path-eligible intent `iC1` with zero buying power. -/
theorem fastpath_appends_unchanged_witness :
    fastCheck (buildOpenPositions pfC1.positions) iC1.ticker (actOf iC1) = .ok true ∧
    processTrade (buildOpenPositions pfC1.positions) [("AAPL", 10)] quotesC1 fb0 0 iC1
      = .ok (some iC1) :=
  ⟨by decide, fastpath_appends_unchanged _ _ _ _ _ _ (by decide)⟩

/-- C3, counterexample. Spec Scenario A claims the SELL quantity is clamped to
the existing long position size 50; in fact the intent is fast-path eligible
(SELL against a non-negative holding), so it is authorized with its original
quantity 100. -/
theorem scenarioA_clamp_cex :
    validate_trades [iC3] quotesC3 pfC3 fb0 = .ok [iC3] ∧
    iC3.quantity = some 100 ∧ iC3.quantity ≠ some 50 :=
  ⟨by decide, rfl, by decide⟩

/-- C3, amended. For the intent `{NVDA, SELL, qty = 100}` against an existing
long NVDA position of 50, the authorized order keeps quantity 100: the intent
takes the fast path (SELL against a non-negative holding), which skips the
position-size clamp. -/
theorem scenarioA_fastpath_qty100 :
    fastCheck (buildOpenPositions pfC3.positions) iC3.ticker (actOf iC3) = .ok true ∧
    validate_trades [iC3] quotesC3 pfC3 fb0 = .ok [iC3] ∧
    iC3.quantity = some 100 :=
  ⟨by decide, by decide, rfl⟩

/-- C7, counterexample. The claim states `validate` never raises. On a
portfolio whose position record carries a null `qty`,
`float(position.get("qty", 0))` on line 30 of `validation.py` raises an
uncaught `TypeError` — even with no intents at all. -/
theorem validate_raises_cex :
    validate_trades [] [] pfC7 fb0 = .error () := by decide

/-- C8, counterexample. The claim states every authorized order has a strictly
positive integer quantity. A fast-path-eligible SELL intent with a null
quantity is authorized unchanged, with `quantity = None`. -/
theorem positive_quantity_cex :
    validate_trades [iC8] [] pfC8 fb0 = .ok [iC8] ∧ iC8.quantity = none :=
  ⟨by decide, rfl⟩

/-- C9, confirmed. `validate_trades` is deterministic in its inputs (the
embedding is a pure function of the intents, quotes, portfolio snapshot and
the fallback-quote oracle): two calls on identical inputs return identical
output lists. -/
theorem validate_deterministic (trades : List Intent) (quotes : List (String × Option ℚ))
    (pf : Portfolio) (fb : String → Option (Option ℚ)) :
    validate_trades trades quotes pf fb = validate_trades trades quotes pf fb := rfl

/-- C4, counterexample. The claim states an exit order first submits a plain
market order and cancels brackets only after (and only if) the broker rejects
it with an inventory conflict. For the COVER order `odC4` the very first
gateway event is the cancellation of bracket order 1 — before any submission,
and with no rejection anywhere in the run (the modelled gateway accepts every
call). -/
theorem exit_cancel_before_submit_cex :
    execute_trade odC4 [bC4]
      = .ok [Ev.cancel 1, Ev.submit (marketSpec "META" (some 20) Side.buy)] ∧
    [Ev.cancel 1, Ev.submit (marketSpec "META" (some 20) Side.buy)].head?
      = some (Ev.cancel 1) :=
  ⟨by decide, rfl⟩

/-- C10, counterexample. The claim states that when parsing the first found
bracket's stop/take details raises, `cancel_bracket_orders_for_ticker` returns
`original_bracket = None`. In fact the loop keeps trying: with a first
bracket whose details fail to parse and a second whose details parse as
`(40, 60)`, the function returns `original_bracket = (40, 60)`, not `None`. -/
theorem orig_bracket_second_parse_cex :
    bC10a.details = none ∧
    (cancel_bracket_orders_for_ticker "GME" [bC10a, bC10b]).2.1 = some (40, 60) ∧
    (cancel_bracket_orders_for_ticker "GME" [bC10a, bC10b]).2.1 ≠ none :=
  ⟨rfl, by decide, by decide⟩

/-- Rounding to two decimal places moves a rational by at most half a cent. -/
theorem round2_bounds (x : ℚ) : x - 1 / 200 ≤ round2 x ∧ round2 x ≤ x + 1 / 200 := by
  have h := abs_le.mp (abs_sub_round (x * 100))
  unfold round2
  constructor <;> linarith [h.1, h.2]

/-- The stop-loss adjustment touches only the `stop_loss` field. -/
theorem adjustStop_fields (act : String) (p : ℚ) (t : Intent) :
    (adjustStop act p t).ticker = t.ticker ∧ (adjustStop act p t).action = t.action ∧
    (adjustStop act p t).quantity = t.quantity ∧
    (adjustStop act p t).order_target_price = t.order_target_price := by
  unfold adjustStop
  repeat' split
  all_goals exact ⟨rfl, rfl, rfl, rfl⟩

/-- After the BUY/COVER stop-loss adjustment, the stop loss is defined and at
least `0.7 * price` minus the rounding slack. -/
theorem adjustStop_buy_bound (act : String) (p : ℚ) (t : Intent)
    (h : act = "BUY" ∨ act = "COVER") :
    ∃ s, (adjustStop act p t).stop_loss = some s ∧ p * (7 / 10) - 1 / 200 ≤ s := by
  unfold adjustStop
  rw [if_pos h]
  cases ht : t.stop_loss with
  | none => exact ⟨_, rfl, (round2_bounds _).1⟩
  | some s =>
    dsimp only
    by_cases hs : s < p * (7 / 10)
    · rw [if_pos hs]
      exact ⟨_, rfl, (round2_bounds _).1⟩
    · rw [if_neg hs]
      exact ⟨s, ht, by linarith [not_lt.mp hs]⟩

/-- After the SELL/SHORT stop-loss adjustment, the stop loss is defined and at
most `1.3 * price` plus the rounding slack. -/
theorem adjustStop_sell_bound (act : String) (p : ℚ) (t : Intent)
    (h : act = "SELL" ∨ act = "SHORT") :
    ∃ s, (adjustStop act p t).stop_loss = some s ∧ s ≤ p * (13 / 10) + 1 / 200 := by
  unfold adjustStop
  rw [if_neg (by rcases h with h | h <;> subst h <;> decide), if_pos h]
  cases ht : t.stop_loss with
  | none => exact ⟨_, rfl, (round2_bounds _).2⟩
  | some s =>
    dsimp only
    by_cases hs : p * (13 / 10) < s
    · rw [if_pos hs]
      exact ⟨_, rfl, (round2_bounds _).2⟩
    · rw [if_neg hs]
      exact ⟨s, ht, by linarith [not_lt.mp hs]⟩

/-- The position-size clamp touches only the `quantity` field. -/
theorem clampStep_fields {positions : List (String × ℚ)} {tkO : Option String}
    {act : String} {t t1 : Intent} (h : clampStep positions tkO act t = .ok (some t1)) :
    t1.ticker = t.ticker ∧ t1.action = t.action ∧ t1.stop_loss = t.stop_loss ∧
    t1.order_target_price = t.order_target_price := by
  unfold clampStep at h
  repeat' split at h
  all_goals simp only [Except.ok.injEq, Option.some.injEq, reduceCtorEq] at h
  all_goals subst h
  all_goals exact ⟨rfl, rfl, rfl, rfl⟩

/-- The position-size clamp raises only on a null quantity. -/
theorem clampStep_ne_error {positions : List (String × ℚ)} {tkO : Option String}
    {act : String} {t : Intent} (h : t.quantity ≠ none) :
    clampStep positions tkO act t ≠ .error () := by
  intro hc
  unfold clampStep at hc
  repeat' split at hc
  all_goals simp_all

/-- Inversion for the price-resolution-and-int-conversion block. -/
theorem priceAndQty_inv {quotes : List (String × Option ℚ)}
    {fb : String → Option (Option ℚ)} {t : Intent} {cp : Option ℚ} {qI : ℤ}
    (h : priceAndQty quotes fb t = some (cp, qI)) :
    resolveCP quotes fb t = some cp ∧ ∃ q, t.quantity = some q ∧ qI = pyInt q := by
  unfold priceAndQty at h
  split at h
  · exact absurd h (by simp)
  · next cp' heq =>
    split at h
    · exact absurd h (by simp)
    · next q hq =>
      simp only [Option.some.injEq, Prod.mk.injEq] at h
      exact ⟨heq.trans (by rw [h.1]), q, hq, h.2.symm⟩

/-- Price resolution depends only on the ticker and the target price. -/
theorem resolveCP_congr {quotes : List (String × Option ℚ)}
    {fb : String → Option (Option ℚ)} {t t' : Intent} (h1 : t.ticker = t'.ticker)
    (h2 : t.order_target_price = t'.order_target_price) :
    resolveCP quotes fb t = resolveCP quotes fb t' := by
  unfold resolveCP
  rw [h1, h2]

/-- Inversion for one loop iteration: an appended order came either from the
fast path (unchanged) or from the full path (clamp, price/quantity resolution,
buying-power check, stop-loss adjustment). -/
theorem processTrade_inv {op : List (String × Position)} {pos : List (String × ℚ)}
    {quotes : List (String × Option ℚ)} {fb : String → Option (Option ℚ)} {bp : ℚ}
    {t o : Intent} (h : processTrade op pos quotes fb bp t = .ok (some o)) :
    (fastCheck op t.ticker (actOf t) = .ok true ∧ o = t) ∨
    (fastCheck op t.ticker (actOf t) = .ok false ∧ ∃ t1 p qI,
      clampStep pos t.ticker (actOf t) t = .ok (some t1) ∧
      priceAndQty quotes fb t1 = some (some p, qI) ∧
      ¬ p * ((|qI| : ℤ) : ℚ) > bp ∧ o = adjustStop (actOf t) p t1) := by
  unfold processTrade at h
  split at h
  · exact absurd h (by simp)
  · next hfast =>
    left
    simp only [Except.ok.injEq, Option.some.injEq] at h
    exact ⟨hfast, h.symm⟩
  · next hfast =>
    right
    refine ⟨hfast, ?_⟩
    split at h
    · exact absurd h (by simp)
    · exact absurd h (by simp)
    · next t1 hclamp =>
      split at h
      · exact absurd h (by simp)
      · exact absurd h (by simp)
      · next p qI hpq =>
        split at h
        · exact absurd h (by simp)
        · next hbp =>
          simp only [Except.ok.injEq, Option.some.injEq] at h
          exact ⟨t1, p, qI, hclamp, hpq, hbp, h.symm⟩

/-- Members of the accumulated output of the main loop: either already in the
accumulator, or produced by `processTrade` from some pending trade. -/
theorem validateLoop_mem {op : List (String × Position)} {pos : List (String × ℚ)}
    {quotes : List (String × Option ℚ)} {fb : String → Option (Option ℚ)} {bp : ℚ}
    (l : List Intent) :
    ∀ acc out, validateLoop op pos quotes fb bp l acc = .ok out →
    ∀ o ∈ out, o ∈ acc ∨ ∃ t ∈ l, processTrade op pos quotes fb bp t = .ok (some o) := by
  induction l with
  | nil =>
    intro acc out h o ho
    unfold validateLoop at h
    simp only [Except.ok.injEq] at h
    subst h
    exact .inl ho
  | cons t rest ih =>
    intro acc out h o ho
    unfold validateLoop at h
    split at h
    · exact absurd h (by simp)
    · rcases ih acc out h o ho with h' | ⟨t', ht', hp⟩
      · exact .inl h'
      · exact .inr ⟨t', List.mem_cons_of_mem _ ht', hp⟩
    · next t'' heq =>
      rcases ih (acc ++ [t'']) out h o ho with h' | ⟨t', ht', hp⟩
      · rcases List.mem_append.mp h' with h'' | h''
        · exact .inl h''
        · have ho'' : o = t'' := by simpa using h''
          subst ho''
          exact .inr ⟨t, List.mem_cons_self _ _, heq⟩
      · exact .inr ⟨t', List.mem_cons_of_mem _ ht', hp⟩

/-- Members of the validator's output all come from `processTrade` applied to
a deduplicated trade. -/
theorem validate_mem {trades : List Intent} {quotes : List (String × Option ℚ)}
    {pf : Portfolio} {fb : String → Option (Option ℚ)} {out : List Intent}
    (h : validate_trades trades quotes pf fb = .ok out) {o : Intent} (ho : o ∈ out) :
    ∃ ps, buildPositions pf.positions = .ok ps ∧
      ∃ t ∈ (uniqueTrades trades).map (fun kv => kv.2),
        processTrade (buildOpenPositions pf.positions) ps quotes fb
          (pf.buying_power.getD 0) t = .ok (some o) := by
  unfold validate_trades at h
  split at h
  · exact absurd h (by simp)
  · next ps hps =>
    rcases validateLoop_mem _ _ _ h o ho with h' | ⟨t, ht, hp⟩
    · simp at h'
    · exact ⟨ps, hps, t, ht, hp⟩

/-- A successful lookup in an updated dict hits either the new value or the
old dict. -/
theorem assocLookup_upd_cases {α : Type} (m : List (String × α)) (k k1 : String) (v x : α)
    (h : assocLookup (upd m k v) k1 = some x) : x = v ∨ assocLookup m k1 = some x := by
  induction m with
  | nil =>
    unfold upd assocLookup at h
    split at h
    · exact .inl (by simpa using h.symm)
    · simp [assocLookup] at h
  | cons kv rest ih =>
    unfold upd at h
    split at h
    · next hkv =>
      unfold assocLookup at h
      split at h
      · exact .inl (by simpa using h.symm)
      · next hne =>
        refine .inr ?_
        unfold assocLookup
        rw [if_neg (by rw [hkv]; exact hne)]
        exact h
    · next hkv =>
      unfold assocLookup at h
      split at h
      · next heq =>
        exact .inr (by unfold assocLookup; rw [if_pos heq]; exact h)
      · next hne =>
        rcases ih h with h' | h'
        · exact .inl h'
        · exact .inr (by unfold assocLookup; rw [if_neg hne]; exact h')

/-- Every value reachable by lookup in the `open_positions` dict is one of the
portfolio's position records. -/
theorem foldl_upd_lookup {P : Position → Prop} :
    ∀ (ps : List Position) (m : List (String × Position)),
      (∀ k pos, assocLookup m k = some pos → P pos) → (∀ pos ∈ ps, P pos) →
      ∀ k pos,
        assocLookup (ps.foldl (fun m p => upd m (p.ticker.getD "") p) m) k = some pos →
        P pos := by
  intro ps
  induction ps with
  | nil =>
    intro m hm _ k pos h
    exact hm k pos h
  | cons p rest ih =>
    intro m hm hps k pos h
    simp only [List.foldl_cons] at h
    refine ih (upd m (p.ticker.getD "") p) ?_ (fun q hq => hps q (List.mem_cons_of_mem _ hq))
      k pos h
    intro k1 pos1 h1
    rcases assocLookup_upd_cases _ _ _ _ _ h1 with rfl | h2
    · exact hps _ (List.mem_cons_self _ _)
    · exact hm k1 pos1 h2

/-- Specialisation of `foldl_upd_lookup` to `buildOpenPositions`. -/
theorem buildOpenPositions_mem {ps : List Position} {k : String} {pos : Position}
    (h : assocLookup (buildOpenPositions ps) k = some pos) : pos ∈ ps :=
  foldl_upd_lookup ps [] (fun k1 pos1 h1 => by simp [assocLookup] at h1)
    (fun _ hp => hp) k pos h

/-- The fast path raises only when a looked-up position has a missing or null
qty. -/
theorem fastCheck_ne_error {openPos : List (String × Position)} {tkO : Option String}
    {act : String}
    (h : ∀ k pos, assocLookup openPos k = some pos → ∃ q, pos.qty = some (some q)) :
    fastCheck openPos tkO act ≠ .error () := by
  intro hc
  unfold fastCheck at hc
  split at hc
  · simp at hc
  · next tk =>
    split at hc
    · simp at hc
    · next pos hlk =>
      obtain ⟨q, hq⟩ := h tk pos hlk
      split_ifs at hc <;> simp [hq] at hc

/-- Position records with a parseable qty never make `buildPositionsLoop`
raise. -/
theorem buildPositionsLoop_ok {ps : List Position}
    (h : ∀ pos ∈ ps, pos.qty ≠ some none) :
    ∀ m, ∃ psOut, buildPositionsLoop ps m = .ok psOut := by
  induction ps with
  | nil =>
    intro m
    exact ⟨m, rfl⟩
  | cons pos rest ih =>
    intro m
    simp only [buildPositionsLoop]
    rcases hq : pos.qty with _ | (_ | q)
    · simpa only [hq] using ih (fun p hp => h p (List.mem_cons_of_mem _ hp)) _
    · exact absurd hq (h pos (List.mem_cons_self _ _))
    · simpa only [hq] using ih (fun p hp => h p (List.mem_cons_of_mem _ hp)) _

/-- A member of an updated dict is either a member of the old dict or the new
binding. -/
theorem mem_upd {α : Type} {m : List (String × α)} {k : String} {v : α} {x : String × α}
    (h : x ∈ upd m k v) : x ∈ m ∨ x = (k, v) := by
  induction m with
  | nil =>
    unfold upd at h
    exact .inr (by simpa using h)
  | cons kv rest ih =>
    unfold upd at h
    split at h
    · rcases List.mem_cons.mp h with h' | h'
      · exact .inr h'
      · exact .inl (List.mem_cons_of_mem _ h')
    · rcases List.mem_cons.mp h with h' | h'
      · exact .inl (h' ▸ List.mem_cons_self _ _)
      · rcases ih h' with h'' | h''
        · exact .inl (List.mem_cons_of_mem _ h'')
        · exact .inr h''

/-- Every trade stored in the deduplication dict is one of the input trades. -/
theorem uniqueTrades_values_mem {trades : List Intent} :
    ∀ kv ∈ uniqueTrades trades, kv.2 ∈ trades := by
  suffices hgen : ∀ (l : List Intent) (m : List (String × Intent)) (P : Intent → Prop),
      (∀ kv ∈ m, P kv.2) → (∀ t ∈ l, P t) →
      ∀ kv ∈ l.foldl
        (fun m t =>
          match t.ticker with
          | none => m
          | some tk => if tk = "" ∨ actOf t = "" then m else upd m (tk ++ "_" ++ actOf t) t)
        m, P kv.2 by
    intro kv hkv
    refine hgen trades [] (· ∈ trades) (by simp) (fun _ ht => ht) kv ?_
    simpa [uniqueTrades] using hkv
  intro l
  induction l with
  | nil =>
    intro m P hm _ kv hkv
    exact hm kv hkv
  | cons t rest ih =>
    intro m P hm hl kv hkv
    simp only [List.foldl_cons] at hkv
    refine ih _ P ?_ (fun u hu => hl u (List.mem_cons_of_mem _ hu)) kv hkv
    intro kv1 hkv1
    rcases ht : t.ticker with _ | tk
    · simp only [ht] at hkv1
      exact hm kv1 hkv1
    · simp only [ht] at hkv1
      by_cases hcond : tk = "" ∨ actOf t = ""
      · rw [if_pos hcond] at hkv1
        exact hm kv1 hkv1
      · rw [if_neg hcond] at hkv1
        rcases mem_upd hkv1 with h' | h'
        · exact hm kv1 h'
        · rw [h']
          exact hl t (List.mem_cons_self _ _)

/-- When the fallback oracle never reports a null price, price resolution
never produces the null `current_price` that would reach line 118
uncaught. -/
theorem resolveCP_ne_some_none {quotes : List (String × Option ℚ)}
    {fb : String → Option (Option ℚ)} {t : Intent}
    (hfb : ∀ s, fb s ≠ some none) :
    resolveCP quotes fb t ≠ some none := by
  intro hc
  unfold resolveCP at hc
  split at hc
  · split at hc <;> simp_all
  · split at hc
    · simp_all
    · split at hc
      · simp_all
      · next c hfbeq =>
        rw [show c = none by simpa using hc] at hfbeq
        exact hfb _ hfbeq

/-- Under well-formed inputs, one loop iteration never raises. -/
theorem processTrade_ne_error {op : List (String × Position)} {pos : List (String × ℚ)}
    {quotes : List (String × Option ℚ)} {fb : String → Option (Option ℚ)} {bp : ℚ}
    {t : Intent}
    (h1 : fastCheck op t.ticker (actOf t) ≠ .error ())
    (h2 : t.quantity ≠ none)
    (h3 : resolveCP quotes fb t ≠ some none) :
    processTrade op pos quotes fb bp t ≠ .error () := by
  intro hc
  unfold processTrade at hc
  split at hc
  · next e heq =>
    cases e
    exact h1 heq
  · simp at hc
  · split at hc
    · next e heq =>
      cases e
      exact clampStep_ne_error h2 heq
    · simp at hc
    · next t1 hclamp =>
      split at hc
      · simp at hc
      · next x hpq =>
        obtain ⟨hres, q, hq, hqI⟩ := priceAndQty_inv hpq
        obtain ⟨hct, hca, hcs, hco⟩ := clampStep_fields hclamp
        exact h3 (((resolveCP_congr hct hco).symm).trans hres)
      · split at hc <;> simp at hc

/-- The main loop succeeds when no pending trade makes an iteration raise. -/
theorem validateLoop_ok {op : List (String × Position)} {pos : List (String × ℚ)}
    {quotes : List (String × Option ℚ)} {fb : String → Option (Option ℚ)} {bp : ℚ} :
    ∀ (l : List Intent) (acc : List Intent),
      (∀ t ∈ l, processTrade op pos quotes fb bp t ≠ .error ()) →
      ∃ out, validateLoop op pos quotes fb bp l acc = .ok out := by
  intro l
  induction l with
  | nil =>
    intro acc _
    exact ⟨acc, rfl⟩
  | cons t rest ih =>
    intro acc h
    unfold validateLoop
    rcases hpt : processTrade op pos quotes fb bp t with e | (_ | t')
    · cases e
      exact absurd hpt (h t (List.mem_cons_self _ _))
    · simpa only [hpt] using ih acc (fun u hu => h u (List.mem_cons_of_mem _ hu))
    · simpa only [hpt] using ih (acc ++ [t']) (fun u hu => h u (List.mem_cons_of_mem _ hu))

/-- C2, counterexample. The claim states every authorized SELL/SHORT order has
`stop_loss ≤ 1.3 * current_price` (up to rounding). The fast-path SELL intent
`iC2` is authorized with its stop loss of 1000 untouched, while the resolved
AAPL price is 100 and `1000 > 1.3 * 100 + 1/200`. -/
theorem stop_loss_bound_cex :
    validate_trades [iC2] quotesC2 pfC2 fb0 = .ok [iC2] ∧
    resolveCP quotesC2 fb0 iC2 = some (some 100) ∧
    actOf iC2 = "SELL" ∧
    iC2.stop_loss = some 1000 ∧
    ¬ ((1000 : ℚ) ≤ 100 * (13 / 10) + 1 / 200) :=
  ⟨by decide, by decide, by decide, rfl, by norm_num⟩

/-- C5, counterexample. The claim states the re-submitted remainder order
carries only a take-profit leg. Covering 5 of 50 reserved TSLA shares, the
remainder order for 45 shares is submitted with `take_profit = 500` AND a
stop-loss leg `(stop 300, limit 297)` rebuilt from the original bracket. -/
theorem remainder_has_stop_leg_cex :
    execute_trade odC5 [bC5] = .ok [Ev.cancel 1,
      Ev.submit { symbol := "TSLA", qty := some 45, side := Side.buy, bracket := true,
                  take_profit := some 500, stop_loss := some (300, 297) },
      Ev.submit (marketSpec "TSLA" (some 5) Side.buy)] ∧
    (some ((300 : ℚ), (297 : ℚ)) ≠ (none : Option (ℚ × ℚ))) := by
  constructor
  · norm_num +decide [execute_trade, execAfterSide, cancel_bracket_orders_for_ticker,
      cancelLoop, reestablish_bracket_for_remaining_shares, marketSpec, actUpper, pyUpper,
      round2, odC5, bC5]
  · decide

/-- C2, amended. The stop-loss bounds hold for every order authorized on the
full (non-fast-path) route: its current price resolves, and for BUY/COVER the
final stop loss is at least `0.7 * price` (up to half-cent rounding), for
SELL/SHORT at most `1.3 * price` (up to half-cent rounding). Fast-path orders
bypass the stop-loss step entirely (see the counterexample). -/
theorem stop_loss_bound_nonfast (trades : List Intent) (quotes : List (String × Option ℚ))
    (pf : Portfolio) (fb : String → Option (Option ℚ)) (out : List Intent) (o : Intent)
    (hok : validate_trades trades quotes pf fb = .ok out) (ho : o ∈ out)
    (hfast : fastCheck (buildOpenPositions pf.positions) o.ticker (actOf o) = .ok false) :
    ∃ p, resolveCP quotes fb o = some (some p) ∧
      ((actOf o = "BUY" ∨ actOf o = "COVER") →
        ∃ s, o.stop_loss = some s ∧ p * (7 / 10) - 1 / 200 ≤ s) ∧
      ((actOf o = "SELL" ∨ actOf o = "SHORT") →
        ∃ s, o.stop_loss = some s ∧ s ≤ p * (13 / 10) + 1 / 200) := by
  obtain ⟨ps, hps, t, ht, hp⟩ := validate_mem hok ho
  rcases processTrade_inv hp with ⟨hf, rfl⟩ | ⟨hf, t1, p, qI, hclamp, hpq, hbp, ho'⟩
  · rw [hf] at hfast
    exact absurd hfast (by simp)
  · obtain ⟨hct, hca, hcs, hco⟩ := clampStep_fields hclamp
    obtain ⟨hat, haa, haq, hao⟩ := adjustStop_fields (actOf t) p t1
    have h1 : o.ticker = t1.ticker := by rw [ho', hat]
    have h2 : o.order_target_price = t1.order_target_price := by rw [ho', hao]
    have hactt : actOf o = actOf t := by
      unfold actOf
      rw [ho', haa, hca]
    obtain ⟨hres, q, hq, hqI⟩ := priceAndQty_inv hpq
    have hre : resolveCP quotes fb o = some (some p) := by
      rw [resolveCP_congr h1 h2]
      exact hres
    refine ⟨p, hre, ?_, ?_⟩
    · intro hb
      obtain ⟨s, hs, hbnd⟩ := adjustStop_buy_bound (actOf t) p t1 (hactt ▸ hb)
      exact ⟨s, by rw [ho']; exact hs, hbnd⟩
    · intro hb
      obtain ⟨s, hs, hbnd⟩ := adjustStop_sell_bound (actOf t) p t1 (hactt ▸ hb)
      exact ⟨s, by rw [ho']; exact hs, hbnd⟩

/-- C2, witness: `stop_loss_bound_nonfast` applied to the full-path BUY order
authorized from `iC2w` (MSFT at 200, stop loss filled in at 140). -/
theorem stop_loss_bound_nonfast_witness :
    ∃ p, resolveCP quotesC2w fb0 oC2w = some (some p) ∧
      ((actOf oC2w = "BUY" ∨ actOf oC2w = "COVER") →
        ∃ s, oC2w.stop_loss = some s ∧ p * (7 / 10) - 1 / 200 ≤ s) ∧
      ((actOf oC2w = "SELL" ∨ actOf oC2w = "SHORT") →
        ∃ s, oC2w.stop_loss = some s ∧ s ≤ p * (13 / 10) + 1 / 200) :=
  stop_loss_bound_nonfast [iC2w] quotesC2w pfC2w fb0 [oC2w] oC2w
    (by norm_num +decide [validate_trades, validateLoop, processTrade, buildPositions,
      buildPositionsLoop, buildOpenPositions, uniqueTrades, upd, fastCheck, clampStep,
      priceAndQty, resolveCP, adjustStop, assocLookup, actOf, pyUpper, pyInt, round2,
      iC2w, pfC2w, quotesC2w, oC2w, fb0])
    (by simp)
    (by decide)

/-- C8, amended. Every order authorized on the full (non-fast-path) route has
a non-null numeric quantity (its `int(quantity)` conversion succeeded); an
intent whose quantity is null is dropped or raises there. Fast-path orders
bypass the conversion, so output quantities are not positive integers in
general (see the counterexample). -/
theorem nonfast_quantity_numeric (trades : List Intent) (quotes : List (String × Option ℚ))
    (pf : Portfolio) (fb : String → Option (Option ℚ)) (out : List Intent) (o : Intent)
    (hok : validate_trades trades quotes pf fb = .ok out) (ho : o ∈ out)
    (hfast : fastCheck (buildOpenPositions pf.positions) o.ticker (actOf o) = .ok false) :
    ∃ q, o.quantity = some q := by
  obtain ⟨ps, hps, t, ht, hp⟩ := validate_mem hok ho
  rcases processTrade_inv hp with ⟨hf, rfl⟩ | ⟨hf, t1, p, qI, hclamp, hpq, hbp, ho'⟩
  · rw [hf] at hfast
    exact absurd hfast (by simp)
  · obtain ⟨hres, q, hq, hqI⟩ := priceAndQty_inv hpq
    obtain ⟨hat, haa, haq, hao⟩ := adjustStop_fields (actOf t) p t1
    exact ⟨q, by rw [ho', haq, hq]⟩

/-- C8, witness: `nonfast_quantity_numeric` applied to the full-path BUY order
authorized from `iC8w` (quantity 3). -/
theorem nonfast_quantity_numeric_witness :
    ∃ q, iC8w.quantity = some q :=
  nonfast_quantity_numeric [iC8w] quotesC8w pfC8w fb0 [iC8w] iC8w
    (by norm_num +decide [validate_trades, validateLoop, processTrade, buildPositions,
      buildPositionsLoop, buildOpenPositions, uniqueTrades, upd, fastCheck, clampStep,
      priceAndQty, resolveCP, adjustStop, assocLookup, actOf, pyUpper, pyInt, round2,
      iC8w, pfC8w, quotesC8w, fb0])
    (by simp)
    (by decide)

/-- C7, amended. `validate_trades` neither raises nor fails — it returns a
(possibly empty) list, dropping malformed intents — provided the inputs are
well-formed where the code lacks protection: every portfolio position carries
a parseable numeric `qty`, every intent carries a numeric (non-null)
`quantity`, and the fallback quote source never reports a null price. Outside
these conditions the function can raise (see the counterexample). -/
theorem validate_total_wellformed (trades : List Intent)
    (quotes : List (String × Option ℚ)) (pf : Portfolio)
    (fb : String → Option (Option ℚ))
    (hpos : ∀ pos ∈ pf.positions, ∃ q, pos.qty = some (some q))
    (hqty : ∀ t ∈ trades, t.quantity ≠ none)
    (hfb : ∀ s, fb s ≠ some none) :
    ∃ out, validate_trades trades quotes pf fb = .ok out := by
  obtain ⟨ps, hps⟩ := @buildPositionsLoop_ok pf.positions
    (fun pos hp => by
      obtain ⟨q, hq⟩ := hpos pos hp
      simp [hq])
    []
  unfold validate_trades
  rw [show buildPositions pf.positions = .ok ps from hps]
  apply validateLoop_ok
  intro t ht
  have htr : t ∈ trades := by
    simp only [List.mem_map] at ht
    obtain ⟨kv, hkv, hkv2⟩ := ht
    exact hkv2 ▸ uniqueTrades_values_mem kv hkv
  refine processTrade_ne_error ?_ (hqty t htr) (resolveCP_ne_some_none hfb)
  exact fastCheck_ne_error (fun k pos hlk => hpos pos (buildOpenPositions_mem hlk))

/-- C7, witness: `validate_total_wellformed` applied to a well-formed intent
and portfolio (the intent is dropped for lack of a price, and the call returns
a list rather than raising). -/
theorem validate_total_wellformed_witness :
    ∃ out, validate_trades [iC7w] [] pfC7w fb0 = .ok out :=
  validate_total_wellformed [iC7w] [] pfC7w fb0
    (by
      intro pos hp
      simp only [pfC7w, List.mem_singleton] at hp
      subst hp
      exact ⟨3, rfl⟩)
    (by
      intro t ht
      simp only [List.mem_singleton] at ht
      subst ht
      simp [iC7w])
    (by
      intro s
      simp [fb0])

/-- The running total of the cancellation loop: the sum of the qty of every
bracket order in the list. -/
theorem cancelLoop_total :
    ∀ (l : List BrokerOrder) (tot : ℤ) (orig : Option (ℚ × ℚ)) (evs : List Ev),
      (cancelLoop l tot orig evs).1
        = tot + ((l.filter (fun o => o.bracket)).map (fun o => o.qty)).sum := by
  intro l
  induction l with
  | nil =>
    intro tot orig evs
    simp [cancelLoop]
  | cons o rest ih =>
    intro tot orig evs
    unfold cancelLoop
    by_cases hb : o.bracket
    · rw [if_pos hb, ih]
      simp only [List.filter_cons, hb, if_pos, List.map_cons, List.sum_cons]
      omega
    · rw [if_neg hb, ih]
      simp [List.filter_cons, hb]

/-- Once `original_bracket` is set, it stays set. -/
theorem cancelLoop_orig_some :
    ∀ (l : List BrokerOrder) (tot : ℤ) (x : ℚ × ℚ) (evs : List Ev),
      (cancelLoop l tot (some x) evs).2.1 = some x := by
  intro l
  induction l with
  | nil =>
    intro tot x evs
    simp [cancelLoop]
  | cons o rest ih =>
    intro tot x evs
    unfold cancelLoop
    by_cases hb : o.bracket
    · rw [if_pos hb]
      exact ih _ _ _
    · rw [if_neg hb]
      exact ih _ _ _

/-- The `original_bracket` result: the first parseable details among the
bracket orders, scanning in order. -/
theorem cancelLoop_orig :
    ∀ (l : List BrokerOrder) (tot : ℤ) (evs : List Ev),
      (cancelLoop l tot none evs).2.1
        = (l.filter (fun o => o.bracket)).findSome? (fun o => o.details) := by
  intro l
  induction l with
  | nil =>
    intro tot evs
    simp [cancelLoop]
  | cons o rest ih =>
    intro tot evs
    unfold cancelLoop
    by_cases hb : o.bracket
    · rw [if_pos hb]
      rcases hd : o.details with _ | d
      · simp only [hd, List.filter_cons, hb, if_pos]
        rw [List.findSome?_cons]
        simp only [hd]
        exact ih _ _
      · simp only [hd, List.filter_cons, hb, if_pos]
        rw [List.findSome?_cons]
        simp only [hd]
        exact cancelLoop_orig_some _ _ _ _
    · rw [if_neg hb]
      simp only [List.filter_cons, hb]
      exact ih _ _

/-- The cancellation events issued: one per bracket order, in order. -/
theorem cancelLoop_evs :
    ∀ (l : List BrokerOrder) (tot : ℤ) (orig : Option (ℚ × ℚ)) (evs : List Ev),
      (cancelLoop l tot orig evs).2.2
        = evs ++ (l.filter (fun o => o.bracket)).map (fun o => Ev.cancel o.id) := by
  intro l
  induction l with
  | nil =>
    intro tot orig evs
    simp [cancelLoop]
  | cons o rest ih =>
    intro tot orig evs
    unfold cancelLoop
    by_cases hb : o.bracket
    · rw [if_pos hb, ih]
      simp [List.filter_cons, hb]
    · rw [if_neg hb, ih]
      simp [List.filter_cons, hb]

/-- Total reserved quantity returned by `cancel_bracket_orders_for_ticker`:
the sum over all open bracket orders for the ticker. -/
theorem cancel_bracket_total (tk : String) (os : List BrokerOrder) :
    (cancel_bracket_orders_for_ticker tk os).1
      = (((os.filter (fun o => o.symbol == tk)).filter (fun o => o.bracket)).map
          (fun o => o.qty)).sum := by
  unfold cancel_bracket_orders_for_ticker
  rw [cancelLoop_total]
  omega

/-- The `original_bracket` returned: the first parseable details among the
ticker's open bracket orders. -/
theorem cancel_bracket_orig (tk : String) (os : List BrokerOrder) :
    (cancel_bracket_orders_for_ticker tk os).2.1
      = ((os.filter (fun o => o.symbol == tk)).filter (fun o => o.bracket)).findSome?
          (fun o => o.details) := by
  unfold cancel_bracket_orders_for_ticker
  exact cancelLoop_orig _ 0 []

/-- The cancellations issued: every open bracket order for the ticker, in
order. -/
theorem cancel_bracket_evs (tk : String) (os : List BrokerOrder) :
    (cancel_bracket_orders_for_ticker tk os).2.2
      = ((os.filter (fun o => o.symbol == tk)).filter (fun o => o.bracket)).map
          (fun o => Ev.cancel o.id) := by
  unfold cancel_bracket_orders_for_ticker
  rw [cancelLoop_evs]
  rfl

/-- C6, counterexample. The claim states the total quantity of cancelled
brackets equals the shortfall that triggered reconciliation. Covering 20 META
shares against brackets of 15 and 50, the code cancels both brackets —
65 shares in total, not 20 — and submits a single remainder order for
`65 - 20 = 45` shares using the first bracket's prices. -/
theorem reconciliation_totals_cex :
    (cancel_bracket_orders_for_ticker "META" [bC6a, bC6b]).1 = 65 ∧
    (65 : ℤ) ≠ 20 ∧
    execute_trade odC6 [bC6a, bC6b] = .ok [Ev.cancel 1, Ev.cancel 2,
      Ev.submit { symbol := "META", qty := some 45, side := Side.buy, bracket := true,
                  take_profit := some 500, stop_loss := some (480, 2376 / 5) },
      Ev.submit (marketSpec "META" (some 20) Side.buy)] := by
  refine ⟨by decide, by decide, ?_⟩
  norm_num +decide [execute_trade, execAfterSide, cancel_bracket_orders_for_ticker,
    cancelLoop, reestablish_bracket_for_remaining_shares, marketSpec, actUpper, pyUpper,
    round2, odC6, bC6a, bC6b]

/-- C4, amended. For every exit order (SELL or COVER) that `execute_trade`
completes, the plain market order is the single LAST gateway event. A SELL is
preceded by nothing. A COVER is preceded by the unconditional cancellation of
every open bracket order for the ticker (plus, possibly, one re-established
remainder bracket) — cancellation happens before the market submission and is
not contingent on any broker rejection (the modelled gateway accepts every
call and the code never inspects a submission's outcome). -/
theorem exit_market_submit_last (od : OrderDict) (os : List BrokerOrder) (tr : List Ev)
    (hok : execute_trade od os = .ok tr)
    (hact : actUpper od = "SELL" ∨ actUpper od = "COVER") :
    ∃ pre tk, od.ticker = some tk ∧
      tr = pre ++ [Ev.submit (marketSpec (pyUpper tk) od.quantity
        (if actUpper od = "COVER" then Side.buy else Side.sell))] ∧
      (actUpper od = "SELL" → pre = []) ∧
      (actUpper od = "COVER" → ∃ q, od.quantity = some q ∧
        (pre = (cancel_bracket_orders_for_ticker (pyUpper tk) os).2.2 ∨
         ∃ ob, pre = (cancel_bracket_orders_for_ticker (pyUpper tk) os).2.2
           ++ [reestablish_bracket_for_remaining_shares (pyUpper tk)
                 (((cancel_bracket_orders_for_ticker (pyUpper tk) os).1 : ℚ) - q) ob
                 Side.buy])) := by
  rcases htk : od.ticker with _ | tk
  · unfold execute_trade at hok
    rw [htk] at hok
    simp at hok
  · rcases hact with hS | hC
    · unfold execute_trade at hok
      rw [htk] at hok
      simp only [hS] at hok
      unfold execAfterSide at hok
      simp at hok
      refine ⟨[], tk, rfl, ?_, fun _ => rfl, fun hc => absurd (hS.symm.trans hc) (by decide)⟩
      simp [hS, hok.symm, marketSpec]
    · unfold execute_trade at hok
      rw [htk] at hok
      simp only [hC] at hok
      unfold execAfterSide at hok
      simp only [hC] at hok
      rcases hq' : od.quantity with _ | q
      · rw [hq'] at hok
        simp at hok
      · rw [hq'] at hok
        simp at hok
        split at hok
        · split at hok
          · next ob hob =>
            simp only [Except.ok.injEq] at hok
            subst hok
            refine ⟨(cancel_bracket_orders_for_ticker (pyUpper tk) os).2.2
              ++ [reestablish_bracket_for_remaining_shares (pyUpper tk)
                    (((cancel_bracket_orders_for_ticker (pyUpper tk) os).1 : ℚ) - q) ob
                    Side.buy], tk, rfl, ?_,
              fun hc => absurd (hC.symm.trans hc) (by decide),
              fun _ => ⟨q, rfl, .inr ⟨ob, rfl⟩⟩⟩
            simp [hq', hC]
          · simp only [Except.ok.injEq] at hok
            subst hok
            refine ⟨(cancel_bracket_orders_for_ticker (pyUpper tk) os).2.2, tk, rfl, ?_,
              fun hc => absurd (hC.symm.trans hc) (by decide),
              fun _ => ⟨q, rfl, .inl rfl⟩⟩
            simp [hq', hC]
        · simp only [Except.ok.injEq] at hok
          subst hok
          refine ⟨(cancel_bracket_orders_for_ticker (pyUpper tk) os).2.2, tk, rfl, ?_,
            fun hc => absurd (hC.symm.trans hc) (by decide),
            fun _ => ⟨q, rfl, .inl rfl⟩⟩
          simp [hq', hC]

/-- C4, witness: `exit_market_submit_last` applied to the COVER order `odC4`
against one open bracket. -/
theorem exit_market_submit_last_witness :
    ∃ pre tk, odC4.ticker = some tk ∧
      [Ev.cancel 1, Ev.submit (marketSpec "META" (some 20) Side.buy)]
        = pre ++ [Ev.submit (marketSpec (pyUpper tk) odC4.quantity
            (if actUpper odC4 = "COVER" then Side.buy else Side.sell))] ∧
      (actUpper odC4 = "SELL" → pre = []) ∧
      (actUpper odC4 = "COVER" → ∃ q, odC4.quantity = some q ∧
        (pre = (cancel_bracket_orders_for_ticker (pyUpper tk) [bC4]).2.2 ∨
         ∃ ob, pre = (cancel_bracket_orders_for_ticker (pyUpper tk) [bC4]).2.2
           ++ [reestablish_bracket_for_remaining_shares (pyUpper tk)
                 (((cancel_bracket_orders_for_ticker (pyUpper tk) [bC4]).1 : ℚ) - q) ob
                 Side.buy])) :=
  exit_market_submit_last odC4 [bC4] _ (by decide) (.inr (by decide))

/-- C5, amended. Whenever the COVER path submits a remainder order (reserved
quantity exceeds the covered quantity and some bracket's details parsed), that
order carries BOTH legs: the original take-profit as its take-profit leg and
the original stop price as a stop-loss leg (with a derived limit 1% below the
stop, the order side being BUY for a COVER). The spec's "only the take-profit
leg" does not hold (see the counterexample). -/
theorem remainder_carries_both_legs (od : OrderDict) (os : List BrokerOrder) (tk : String)
    (q s tp : ℚ)
    (htk : od.ticker = some tk) (hact : actUpper od = "COVER") (hq : od.quantity = some q)
    (horig : (cancel_bracket_orders_for_ticker (pyUpper tk) os).2.1 = some (s, tp))
    (hgt : ((cancel_bracket_orders_for_ticker (pyUpper tk) os).1 : ℚ) > q) :
    execute_trade od os
      = .ok ((cancel_bracket_orders_for_ticker (pyUpper tk) os).2.2
          ++ [Ev.submit
                { symbol := pyUpper tk,
                  qty := some (((cancel_bracket_orders_for_ticker (pyUpper tk) os).1 : ℚ) - q),
                  side := Side.buy, bracket := true,
                  take_profit := some tp,
                  stop_loss := some (s, round2 (s - s * (1 / 100))) }]
          ++ [Ev.submit (marketSpec (pyUpper tk) od.quantity Side.buy)]) := by
  unfold execute_trade
  rw [htk]
  simp only [hact]
  norm_num
  unfold execAfterSide
  simp only [hq, hact]
  norm_num
  rw [if_pos hgt, horig]
  simp [reestablish_bracket_for_remaining_shares]

/-- C5, witness: `remainder_carries_both_legs` applied to the COVER order
`odC5` against the 50-share TSLA bracket (stop 300, take 500). -/
theorem remainder_carries_both_legs_witness :
    execute_trade odC5 [bC5]
      = .ok ((cancel_bracket_orders_for_ticker (pyUpper "TSLA") [bC5]).2.2
          ++ [Ev.submit
                { symbol := pyUpper "TSLA",
                  qty := some
                    (((cancel_bracket_orders_for_ticker (pyUpper "TSLA") [bC5]).1 : ℚ) - 5),
                  side := Side.buy, bracket := true,
                  take_profit := some 500,
                  stop_loss := some (300, round2 (300 - 300 * (1 / 100))) }]
          ++ [Ev.submit (marketSpec (pyUpper "TSLA") odC5.quantity Side.buy)]) :=
  remainder_carries_both_legs odC5 [bC5] "TSLA" 5 300 500 (by decide) (by decide) (by decide)
    (by decide) (by norm_num [cancel_bracket_orders_for_ticker, cancelLoop, bC5])

/-- C6, amended. In a COVER run there is no shortfall-bounded loop: every open
bracket order for the ticker is cancelled, so the total quantity freed is the
sum of ALL their quantities regardless of the exit quantity; and when that
total exceeds the COVER quantity and some bracket's details parsed, exactly
one remainder order is submitted, of quantity (total reserved − COVER
quantity) — not (original bracket quantity − freed quantity). -/
theorem cover_cancels_all_brackets (od : OrderDict) (os : List BrokerOrder) (tk : String)
    (q : ℚ)
    (htk : od.ticker = some tk) (hact : actUpper od = "COVER") (hq : od.quantity = some q) :
    (cancel_bracket_orders_for_ticker (pyUpper tk) os).1
      = (((os.filter (fun o => o.symbol == pyUpper tk)).filter (fun o => o.bracket)).map
          (fun o => o.qty)).sum ∧
    (((cancel_bracket_orders_for_ticker (pyUpper tk) os).1 : ℚ) > q →
      ∀ ob, (cancel_bracket_orders_for_ticker (pyUpper tk) os).2.1 = some ob →
        execute_trade od os
          = .ok ((cancel_bracket_orders_for_ticker (pyUpper tk) os).2.2
              ++ [reestablish_bracket_for_remaining_shares (pyUpper tk)
                    (((cancel_bracket_orders_for_ticker (pyUpper tk) os).1 : ℚ) - q) ob
                    Side.buy]
              ++ [Ev.submit (marketSpec (pyUpper tk) od.quantity Side.buy)])) := by
  refine ⟨cancel_bracket_total _ _, ?_⟩
  intro hgt ob hob
  unfold execute_trade
  rw [htk]
  simp only [hact]
  norm_num
  unfold execAfterSide
  simp only [hq, hact]
  norm_num
  rw [if_pos hgt, hob]
  simp

/-- C6, witness: `cover_cancels_all_brackets` applied to the Scenario-D-like
COVER of 20 META shares against brackets of 15 and 50 (total 65 > 20). -/
theorem cover_cancels_all_brackets_witness :
    (cancel_bracket_orders_for_ticker (pyUpper "META") [bC6a, bC6b]).1
      = ((([bC6a, bC6b].filter (fun o => o.symbol == pyUpper "META")).filter
          (fun o => o.bracket)).map (fun o => o.qty)).sum ∧
    execute_trade odC6 [bC6a, bC6b]
      = .ok ((cancel_bracket_orders_for_ticker (pyUpper "META") [bC6a, bC6b]).2.2
          ++ [reestablish_bracket_for_remaining_shares (pyUpper "META")
                (((cancel_bracket_orders_for_ticker (pyUpper "META") [bC6a, bC6b]).1 : ℚ) - 20)
                (480, 500) Side.buy]
          ++ [Ev.submit (marketSpec (pyUpper "META") odC6.quantity Side.buy)]) :=
  ⟨(cover_cancels_all_brackets odC6 [bC6a, bC6b] "META" 20 (by decide) (by decide)
      (by decide)).1,
   (cover_cancels_all_brackets odC6 [bC6a, bC6b] "META" 20 (by decide) (by decide)
      (by decide)).2
     (by norm_num [cancel_bracket_orders_for_ticker, cancelLoop, bC6a, bC6b])
     (480, 500) (by decide)⟩

/-- Helper for C10: when no bracket's details parse, no `original_bracket` is
found. -/
theorem findSome_details_none {l : List BrokerOrder} (h : ∀ o ∈ l, o.details = none) :
    l.findSome? (fun o => o.details) = none := by
  induction l with
  | nil => rfl
  | cons o rest ih =>
    rw [List.findSome?_cons]
    rw [h o (List.mem_cons_self _ _)]
    exact ih (fun o' ho' => h o' (List.mem_cons_of_mem _ ho'))

/-- C10, amended. When the stop/take details of EVERY open bracket order for
the ticker fail to parse (the function keeps trying each bracket in turn, so a
single failure is not enough — see the counterexample), the COVER path still
cancels all of them, `original_bracket` comes back `None`, and
`execute_trade` re-establishes no bracket: the remaining shares are left with
no protective legs, and only the plain market order is submitted after the
cancellations. -/
theorem all_parse_fail_no_reestablish (od : OrderDict) (os : List BrokerOrder) (tk : String)
    (q : ℚ)
    (htk : od.ticker = some tk) (hact : actUpper od = "COVER") (hq : od.quantity = some q)
    (hdet : ∀ o ∈ os, o.symbol = pyUpper tk → o.bracket = true → o.details = none) :
    (cancel_bracket_orders_for_ticker (pyUpper tk) os).2.1 = none ∧
    (cancel_bracket_orders_for_ticker (pyUpper tk) os).2.2
      = ((os.filter (fun o => o.symbol == pyUpper tk)).filter (fun o => o.bracket)).map
          (fun o => Ev.cancel o.id) ∧
    execute_trade od os
      = .ok ((cancel_bracket_orders_for_ticker (pyUpper tk) os).2.2
          ++ [Ev.submit (marketSpec (pyUpper tk) od.quantity Side.buy)]) := by
  have horig : (cancel_bracket_orders_for_ticker (pyUpper tk) os).2.1 = none := by
    rw [cancel_bracket_orig]
    refine findSome_details_none ?_
    intro o ho
    have h1 := List.mem_filter.mp ho
    have h2 := List.mem_filter.mp h1.1
    exact hdet o h2.1 (by simpa using h2.2) (by simpa using h1.2)
  refine ⟨horig, cancel_bracket_evs _ _, ?_⟩
  unfold execute_trade
  rw [htk]
  simp only [hact]
  norm_num
  unfold execAfterSide
  simp only [hq, hact]
  norm_num
  by_cases hgt : ((cancel_bracket_orders_for_ticker (pyUpper tk) os).1 : ℚ) > q
  · rw [if_pos hgt, horig]
    simp
  · rw [if_neg hgt]
    simp

/-- C10, witness: `all_parse_fail_no_reestablish` applied to a COVER of 4 GME
shares against one 10-share bracket with unparseable details. -/
theorem all_parse_fail_no_reestablish_witness :
    (cancel_bracket_orders_for_ticker (pyUpper "GME") [bC10w]).2.1 = none ∧
    (cancel_bracket_orders_for_ticker (pyUpper "GME") [bC10w]).2.2
      = (([bC10w].filter (fun o => o.symbol == pyUpper "GME")).filter
          (fun o => o.bracket)).map (fun o => Ev.cancel o.id) ∧
    execute_trade odC10w [bC10w]
      = .ok ((cancel_bracket_orders_for_ticker (pyUpper "GME") [bC10w]).2.2
          ++ [Ev.submit (marketSpec (pyUpper "GME") odC10w.quantity Side.buy)]) :=
  all_parse_fail_no_reestablish odC10w [bC10w] "GME" 4 (by decide) (by decide) (by decide)
    (by
      intro o ho hsym hbr
      simp only [List.mem_singleton] at ho
      subst ho
      rfl)

end LLMTrader
